import Mathlib

/-!
Verification of the FM tuning-control engine of cstroie/FMWebRadio
(src/src/main.cpp).  Frequencies are modelled in tenths of MHz, so the
FM band 87.5 .. 108.0 MHz becomes the integer interval 875 .. 1080 and
the 0.1 MHz step becomes 1.  The firmware stores the frequency in a
float stepped by exactly 0.1; the integer model captures the grid the
code walks on.  The RDA5807 tuner is an external capability: it enters
the model as the function `rssi : Nat → Int` read by the seek loop and
as the `RdsTuner` record read by `checkRDSData`.
-/

set_option maxRecDepth 16000

namespace FMWebRadio

/-- The band floor 87.5 MHz in tenths. -/
def bandLow : Nat := 875

/-- The band ceiling 108.0 MHz in tenths. -/
def bandHigh : Nat := 1080

/-- A frequency lies on the FM band handled by the firmware. -/
def inBand (f : Nat) : Prop := 875 ≤ f ∧ f ≤ 1080

instance (f : Nat) : Decidable (inBand f) := by unfold inBand; infer_instance

/-- One upward step of main.cpp (`currentFrequency += 0.1; if (> 108.0) = 87.5`),
lines 399-400, 575-576, 719-720. -/
def stepUpF (f : Nat) : Nat := if 1080 < f + 1 then 875 else f + 1

/-- One downward step (`currentFrequency -= 0.1; if (< 87.5) = 108.0`),
lines 428-429, 628-629, 735-736. -/
def stepDownF (f : Nat) : Nat := if f - 1 < 875 then 1080 else f - 1

/-- Outcome of a seek: whether a station was found, the frequency the
controller holds afterwards, how many loop iterations ran, and the
visited `(loop counter, tuned frequency)` pairs (ghost instrumentation). -/
structure SeekResult where
  found : Bool
  freq : Nat
  iters : Nat
  trace : List (Nat × Nat)
deriving DecidableEq, Repr

/-- The seek loop of `seekUp`/`seekDown` (main.cpp lines 574-607 and
627-660), generic in the step function `σ`.  Each iteration advances the
frequency, reads the RSSI, returns with `found = true` if the RSSI
exceeds the threshold 30, and otherwise breaks out when the frequency is
back at the start (`abs(f - orig) < 0.01`, exact equality on the 0.1
grid) after more than 10 iterations.  Falling out of the loop restores
the original frequency (lines 605-606 / 658-659). -/
def seekFrom (σ : Nat → Nat) (rssi : Nat → Int) (orig f i fuel : Nat) : SeekResult :=
  match fuel with
  | 0 => ⟨false, orig, i, []⟩
  | fuel' + 1 =>
    if 30 < rssi (σ f) then ⟨true, σ f, i + 1, [(i, σ f)]⟩
    else if σ f = orig ∧ 10 < i then ⟨false, orig, i + 1, [(i, σ f)]⟩
    else
      match seekFrom σ rssi orig (σ f) (i + 1) fuel' with
      | ⟨b, fr, it, tr⟩ => ⟨b, fr, it, (i, σ f) :: tr⟩

/-- `maxSteps` of main.cpp lines 570 and 623. -/
def maxSteps : Nat := 2050

/-- `void seekUp()` of main.cpp lines 566-608, as a function of the
tuner's RSSI response and the starting frequency. -/
def seekUp (rssi : Nat → Int) (f0 : Nat) : SeekResult :=
  seekFrom stepUpF rssi f0 f0 0 maxSteps

/-- `void seekDown()` of main.cpp lines 619-661. -/
def seekDown (rssi : Nat → Int) (f0 : Nat) : SeekResult :=
  seekFrom stepDownF rssi f0 f0 0 maxSteps

/-- The RDS snapshot held in the globals of main.cpp lines 235-240.
`ptyStr` is the formatted `"PTY:%d"` string of line 543. -/
structure RdsData where
  ps : String
  rt : String
  ptyStr : String
  tp : Bool
  ta : Bool
  piCode : Nat
deriving DecidableEq, Repr

/-- What the RDA5807 tuner reports when polled: the single readiness
flag `getRDSready()` and the currently buffered field values returned by
`getRDS_PS`, `getRDS_RT`, `getRDS_PTY`, `getRDS_TP`, `getRDS_TA`,
`getRDS_PI`. -/
structure RdsTuner where
  ready : Bool
  ps : String
  rt : String
  pty : Nat
  tp : Bool
  ta : Bool
  piCode : Nat
deriving DecidableEq, Repr

/-- The controller state: the globals of main.cpp lines 229-240 plus the
commands last issued to the tuner (`tunerFreq`, `tunerMuted`,
`tunerVolume`) and a count of `setVolume` invocations. -/
structure RadioState where
  freq : Nat
  radioOn : Bool
  volume : Nat
  tunerFreq : Nat
  tunerMuted : Bool
  tunerVolume : Nat
  setVolumeCalls : Nat
  rds : RdsData
deriving DecidableEq, Repr

/-- The global initializers of main.cpp lines 230-240: 87.5 MHz, radio
off, volume 5, RDS fields empty; no tuner command issued yet. -/
def powerOnGlobals : RadioState :=
  ⟨875, false, 5, 0, false, 0, 0, ⟨"", "", "", false, false, 0⟩⟩

/-- The radio part of `setup()` (main.cpp lines 303-312): applies the
current frequency and volume to the tuner, turns the radio on and
clears the RDS text buffers. -/
def setupRadio (s : RadioState) : RadioState :=
  { s with tunerFreq := s.freq, tunerVolume := s.volume,
           setVolumeCalls := s.setVolumeCalls + 1, radioOn := true,
           rds := ⟨"", "", "", s.rds.tp, s.rds.ta, s.rds.piCode⟩ }

/-- The state after `setup()` runs on the cold-start globals. -/
def initState : RadioState := setupRadio powerOnGlobals

/-- A short UP press / `handleUp()` (main.cpp lines 398-404, 718-725):
step the frequency up and command the tuner to it. -/
def applyStepUp (s : RadioState) : RadioState :=
  { s with freq := stepUpF s.freq, tunerFreq := stepUpF s.freq }

/-- A short DOWN press / `handleDown()` (main.cpp lines 427-433, 734-741). -/
def applyStepDown (s : RadioState) : RadioState :=
  { s with freq := stepDownF s.freq, tunerFreq := stepDownF s.freq }

/-- The OK-button branch of `loop()` and `handleToggle()` (main.cpp
lines 440-453, 777-788): flip `radioOn`; when turning on, re-apply the
current frequency and unmute; when turning off, mute. -/
def togglePower (s : RadioState) : RadioState :=
  if s.radioOn then { s with radioOn := false, tunerMuted := true }
  else { s with radioOn := true, tunerFreq := s.freq, tunerMuted := false }

/-- A long UP press / `handleSeekUp()`: run the seek and keep its final
frequency (the found station, or the restored original). -/
def applySeekUp (rssi : Nat → Int) (s : RadioState) : RadioState :=
  { s with freq := (seekUp rssi s.freq).freq, tunerFreq := (seekUp rssi s.freq).freq }

/-- A long DOWN press / `handleSeekDown()`. -/
def applySeekDown (rssi : Nat → Int) (s : RadioState) : RadioState :=
  { s with freq := (seekDown rssi s.freq).freq, tunerFreq := (seekDown rssi s.freq).freq }

/-- `void checkRDSData()` (main.cpp lines 531-555): when `getRDSready()`
reports data, read every RDS field from the tuner into the snapshot;
otherwise do nothing. -/
def checkRDSData (t : RdsTuner) (s : RadioState) : RadioState :=
  if t.ready then
    { s with rds := ⟨t.ps, t.rt, "PTY:" ++ toString t.pty, t.tp, t.ta, t.piCode⟩ }
  else s

/-- `handleRoot()` (main.cpp lines 675-709) only renders the snapshot. -/
def handleRoot (s : RadioState) : RadioState := s

/-- The operations of the control engine: steps, seeks, the power
toggle, an RDS poll and the read-only web root.  The web handlers map
one to one onto these operations. -/
inductive Op where
  | stepUp : Op
  | stepDown : Op
  | seekUpOp : (Nat → Int) → Op
  | seekDownOp : (Nat → Int) → Op
  | toggle : Op
  | rdsPoll : RdsTuner → Op
  | webRoot : Op

/-- Dispatch one operation. -/
def applyOp (s : RadioState) : Op → RadioState
  | Op.stepUp => applyStepUp s
  | Op.stepDown => applyStepDown s
  | Op.seekUpOp rssi => applySeekUp rssi s
  | Op.seekDownOp rssi => applySeekDown rssi s
  | Op.toggle => togglePower s
  | Op.rdsPoll t => checkRDSData t s
  | Op.webRoot => handleRoot s

/-- Run a sequence of operations. -/
def run (s : RadioState) : List Op → RadioState
  | [] => s
  | op :: ops => run (applyOp s op) ops

/-- The frequency in MHz, as held by the controller. -/
def freqMHz (s : RadioState) : ℚ := (s.freq : ℚ) / 10

/-- An RSSI response that is 0 everywhere: no station on the band. -/
def rssiZero : Nat → Int := fun _ => 0

/-- RSSI 50 at 87.5 MHz (the seek's own starting frequency) and 0
elsewhere. -/
def rssiHome : Nat → Int := fun f => if f = 875 then 50 else 0

/-- RSSI 50 at 88.3 MHz and 0 elsewhere (the spec's synthetic tuner). -/
def rssi883 : Nat → Int := fun f => if f = 883 then 50 else 0

/-- RSSI 50 everywhere: the first scanned frequency already qualifies. -/
def rssiAll : Nat → Int := fun _ => 50

/-- A controller state tuned to 87.8 MHz, as in the spec's scenario. -/
def st878 : RadioState := { initState with freq := 878, tunerFreq := 878 }

/-- Events the physical input layer hands to the controller. -/
inductive InEvent where
  | step : InEvent
  | seek : InEvent
deriving DecidableEq, Repr

/-- The UP button line: held low (pressed) at every instant before `d`
milliseconds, released from `d` on. -/
def pressedUp (d t : Nat) : Bool := t < d

/-- The inner `while (digitalRead(BTN_UP) == LOW)` wait of `loop()`
(main.cpp lines 386-395): `cur` is `currentMillis`, re-read every 10 ms
`delay`.  Returns the final `currentMillis` and whether the long-press
branch fired (`seekUp()` then `break`, without waiting for release). -/
def innerWaitUp (d bpt : Nat) : Nat → Nat → Nat × Bool
  | cur, 0 => (cur, false)
  | cur, fuel + 1 =>
    if pressedUp d cur then
      if 1000 < cur - bpt then (cur, true)
      else innerWaitUp d bpt (cur + 10) fuel
    else (cur, false)

/-- State of the timed simulation of `loop()`s UP-button handling:
`t` is `millis()` at the top of the loop, `lastBP` is
`lastButtonPress`, `freq` is `currentFrequency`, and `events` collects
the Step/Seek commands issued so far. -/
structure SimState where
  t : Nat
  lastBP : Nat
  freq : Nat
  events : List InEvent
deriving DecidableEq, Repr

/-- One pass of `loop()` over the UP-button branch (main.cpp lines
382-408), with the 10 ms loop `delay` and the 50 ms per-iteration delay
inside `seekUp` as the only time costs.  After a long press the code
calls `seekUp()` and breaks out while the button may still be held: it
does not wait for release (contrast line 452 for the OK button). -/
def loopUpIter (d : Nat) (rssi : Nat → Int) (s : SimState) : SimState :=
  if pressedUp d s.t = true ∧ 200 < s.t - s.lastBP then
    let bpt := s.t
    let w := innerWaitUp d bpt bpt 400
    if w.2 then
      { t := w.1 + 50 * (seekUp rssi s.freq).iters + 10, lastBP := w.1,
        freq := (seekUp rssi s.freq).freq, events := s.events ++ [InEvent.seek] }
    else if w.1 - bpt ≤ 1000 then
      { t := w.1 + 10, lastBP := w.1, freq := stepUpF s.freq,
        events := s.events ++ [InEvent.step] }
    else
      { t := w.1 + 10, lastBP := w.1, freq := s.freq, events := s.events }
  else
    { s with t := s.t + 10 }

/-- Run `n` passes of the loop. -/
def runSim (d : Nat) (rssi : Nat → Int) : Nat → SimState → SimState
  | 0, s => s
  | n + 1, s => runSim d rssi n (loopUpIter d rssi s)

/-- Simulation start: the loop is idle at `millis() = 10`, the last
accepted event was at time 0, the radio is tuned to 100.0 MHz, and the
UP button is already held (one continuous press that began at time 0). -/
def simInit : SimState := ⟨10, 0, 1000, []⟩

/-! ## Helper lemmas about the seek loop -/

theorem seekFrom_zero (σ : Nat → Nat) (rssi : Nat → Int) (orig f i : Nat) :
    seekFrom σ rssi orig f i 0 = ⟨false, orig, i, []⟩ := rfl

theorem seekFrom_succ (σ : Nat → Nat) (rssi : Nat → Int) (orig f i fuel : Nat) :
    seekFrom σ rssi orig f i (fuel + 1) =
      if 30 < rssi (σ f) then ⟨true, σ f, i + 1, [(i, σ f)]⟩
      else if σ f = orig ∧ 10 < i then ⟨false, orig, i + 1, [(i, σ f)]⟩
      else ⟨(seekFrom σ rssi orig (σ f) (i + 1) fuel).found,
            (seekFrom σ rssi orig (σ f) (i + 1) fuel).freq,
            (seekFrom σ rssi orig (σ f) (i + 1) fuel).iters,
            (i, σ f) :: (seekFrom σ rssi orig (σ f) (i + 1) fuel).trace⟩ := by
  rcases h : seekFrom σ rssi orig (σ f) (i + 1) fuel with ⟨b, fr, it, tr⟩
  rw [seekFrom, h]

theorem stepUpF_band {f : Nat} (h : inBand f) : inBand (stepUpF f) := by
  unfold inBand stepUpF at *
  split <;> omega

theorem stepDownF_band {f : Nat} (h : inBand f) : inBand (stepDownF f) := by
  unfold inBand stepDownF at *
  split <;> omega

theorem stepUpF_mod (m : Nat) (hm : m ≤ 205) :
    stepUpF (875 + m) = 875 + (m + 1) % 206 := by
  unfold stepUpF
  split <;> omega

theorem stepDownF_mod (m : Nat) (hm : m ≤ 205) :
    stepDownF (875 + m) = 875 + (m + 205) % 206 := by
  unfold stepDownF
  split <;> omega

theorem stepUpF_iterate (x0 : Nat) (hx : x0 ≤ 205) (n : Nat) :
    stepUpF^[n] (875 + x0) = 875 + (x0 + n) % 206 := by
  induction n with
  | zero => simp only [Function.iterate_zero_apply]; omega
  | succ n ih =>
    rw [Function.iterate_succ_apply', ih, stepUpF_mod _ (by omega)]
    omega

theorem stepDownF_iterate (x0 : Nat) (hx : x0 ≤ 205) (n : Nat) :
    stepDownF^[n] (875 + x0) = 875 + (x0 + 205 * n) % 206 := by
  induction n with
  | zero => simp only [Function.iterate_zero_apply]; omega
  | succ n ih =>
    rw [Function.iterate_succ_apply', ih, stepDownF_mod _ (by omega)]
    omega

/-- When no in-band frequency beats the threshold, the loop never takes
the success branch: it ends with `found = false` and the original
frequency restored. -/
theorem seekFrom_weak (σ : Nat → Nat) (rssi : Nat → Int) (orig : Nat)
    (hσ : ∀ f, inBand f → inBand (σ f))
    (hweak : ∀ f, inBand f → rssi f ≤ 30) :
    ∀ fuel f i, inBand f →
      (seekFrom σ rssi orig f i fuel).found = false ∧
      (seekFrom σ rssi orig f i fuel).freq = orig := by
  intro fuel
  induction fuel with
  | zero => intro f i _; exact ⟨rfl, rfl⟩
  | succ fuel ih =>
    intro f i hf
    have hb := hσ f hf
    have hw := hweak _ hb
    rw [seekFrom_succ, if_neg (by omega)]
    by_cases hc : σ f = orig ∧ 10 < i
    · rw [if_pos hc]; exact ⟨rfl, rfl⟩
    · rw [if_neg hc]; exact ih (σ f) (i + 1) hb

/-- The frequency a seek ends on is always in band. -/
theorem seekFrom_freq_band (σ : Nat → Nat) (rssi : Nat → Int) (orig : Nat)
    (hσ : ∀ f, inBand f → inBand (σ f)) (horig : inBand orig) :
    ∀ fuel f i, inBand f → inBand (seekFrom σ rssi orig f i fuel).freq := by
  intro fuel
  induction fuel with
  | zero => intro f i _; exact horig
  | succ fuel ih =>
    intro f i hf
    have hb := hσ f hf
    rw [seekFrom_succ]
    by_cases h1 : 30 < rssi (σ f)
    · rw [if_pos h1]; exact hb
    · rw [if_neg h1]
      by_cases h2 : σ f = orig ∧ 10 < i
      · rw [if_pos h2]; exact horig
      · rw [if_neg h2]; exact ih (σ f) (i + 1) hb

/-- Whatever the RSSI responses, the loop runs at most 206 iterations:
stepping is cyclic with period 206, and when the frequency is back at
the start the full-circle break fires (the counter is then 205 > 10). -/
theorem seekFrom_iters_le (σ : Nat → Nat) (rssi : Nat → Int) (orig : Nat)
    (hcyc : σ^[206] orig = orig) :
    ∀ fuel i, i ≤ 205 → 206 ≤ i + fuel →
      (seekFrom σ rssi orig (σ^[i] orig) i fuel).iters ≤ 206 := by
  intro fuel
  induction fuel with
  | zero => intro i h1 h2; omega
  | succ fuel ih =>
    intro i h1 h2
    have hstep : σ (σ^[i] orig) = σ^[i + 1] orig :=
      (Function.iterate_succ_apply' σ i orig).symm
    rw [seekFrom_succ]
    by_cases hs : 30 < rssi (σ (σ^[i] orig))
    · rw [if_pos hs]; show i + 1 ≤ 206; omega
    · rw [if_neg hs]
      by_cases hc : σ (σ^[i] orig) = orig ∧ 10 < i
      · rw [if_pos hc]; show i + 1 ≤ 206; omega
      · rw [if_neg hc]
        by_cases hi : i = 205
        · exfalso
          apply hc
          subst hi
          refine ⟨?_, by omega⟩
          rw [hstep]
          exact hcyc
        · rw [hstep]
          exact ih (i + 1) (by omega) (by omega)

/-- If the `k`-th step from the start lands on a strong frequency `g`
and no earlier step does (nor returns to the start), the loop stops
exactly there and reports it. -/
theorem seekFrom_hits (σ : Nat → Nat) (rssi : Nat → Int) (orig g k : Nat)
    (hT : σ^[k] orig = g) (hstrong : 30 < rssi g)
    (hbefore : ∀ j, 1 ≤ j → j < k → rssi (σ^[j] orig) ≤ 30)
    (hnocirc : ∀ j, 1 ≤ j → j < k → σ^[j] orig ≠ orig) :
    ∀ fuel i, i < k → k ≤ i + fuel →
      (seekFrom σ rssi orig (σ^[i] orig) i fuel).found = true ∧
      (seekFrom σ rssi orig (σ^[i] orig) i fuel).freq = g ∧
      (seekFrom σ rssi orig (σ^[i] orig) i fuel).iters = k := by
  intro fuel
  induction fuel with
  | zero => intro i h1 h2; omega
  | succ fuel ih =>
    intro i h1 h2
    have hstep : σ (σ^[i] orig) = σ^[i + 1] orig :=
      (Function.iterate_succ_apply' σ i orig).symm
    rw [seekFrom_succ]
    by_cases hik : i + 1 = k
    · have hg : σ (σ^[i] orig) = g := by rw [hstep, hik, hT]
      rw [if_pos (by rw [hg]; exact hstrong)]
      exact ⟨rfl, hg, hik⟩
    · have hlt : i + 1 < k := by omega
      have hw : rssi (σ (σ^[i] orig)) ≤ 30 := by
        rw [hstep]; exact hbefore (i + 1) (by omega) hlt
      rw [if_neg (by omega),
          if_neg (fun hcc => hnocirc (i + 1) (by omega) hlt (by rw [← hstep]; exact hcc.1))]
      rw [hstep]
      exact ih (i + 1) hlt (by omega)

/-- If the start frequency itself is not strong, then reaching a trace
entry where the scanned frequency equals the start after more than 10
iterations terminates the scan there with `found = false`. -/
theorem seekFrom_circle (σ : Nat → Nat) (rssi : Nat → Int) (orig : Nat)
    (hweak : rssi orig ≤ 30) :
    ∀ fuel f i0 i, 10 < i → (i, orig) ∈ (seekFrom σ rssi orig f i0 fuel).trace →
      (seekFrom σ rssi orig f i0 fuel).found = false ∧
      (seekFrom σ rssi orig f i0 fuel).freq = orig ∧
      (seekFrom σ rssi orig f i0 fuel).iters = i + 1 := by
  intro fuel
  induction fuel with
  | zero =>
    intro f i0 i hi hmem
    rw [seekFrom_zero] at hmem
    simp at hmem
  | succ fuel ih =>
    intro f i0 i hi hmem
    rw [seekFrom_succ] at hmem ⊢
    by_cases hs : 30 < rssi (σ f)
    · rw [if_pos hs] at hmem
      simp only [List.mem_singleton, Prod.mk.injEq] at hmem
      rw [← hmem.2] at hs
      omega
    · rw [if_neg hs] at hmem ⊢
      by_cases hc : σ f = orig ∧ 10 < i0
      · rw [if_pos hc] at hmem ⊢
        simp only [List.mem_singleton, Prod.mk.injEq] at hmem
        obtain ⟨h1, h2⟩ := hmem
        refine ⟨rfl, rfl, ?_⟩
        show i0 + 1 = i + 1
        omega
      · rw [if_neg hc] at hmem ⊢
        simp only [List.mem_cons, Prod.mk.injEq] at hmem
        rcases hmem with ⟨h1, h2⟩ | h
        · exact absurd ⟨h2.symm, by omega⟩ hc
        · exact ih (σ f) (i0 + 1) i hi h

/-- `seekUp` stops at the unique strong in-band frequency `g`. -/
theorem seekUp_finds_unique (f0 g : Nat) (rssi : Nat → Int)
    (hf : inBand f0) (hg : inBand g) (hstrong : 30 < rssi g)
    (hothers : ∀ f, inBand f → f ≠ g → rssi f ≤ 30) :
    (seekUp rssi f0).found = true ∧ (seekUp rssi f0).freq = g := by
  obtain ⟨hf1, hf2⟩ := hf
  obtain ⟨hg1, hg2⟩ := hg
  have hx : f0 - 875 ≤ 205 := by omega
  have hsf : f0 = 875 + (f0 - 875) := by omega
  have hex : ∃ k, 1 ≤ k ∧ k ≤ 206 ∧ ((f0 - 875) + k) % 206 = g - 875 := by
    by_cases hlt : f0 - 875 < g - 875
    · exact ⟨(g - 875) - (f0 - 875), by omega, by omega, by omega⟩
    · exact ⟨(g - 875) + 206 - (f0 - 875), by omega, by omega, by omega⟩
  obtain ⟨k, hk1, hk2, hkm⟩ := hex
  have hT : stepUpF^[k] f0 = g := by
    rw [hsf, stepUpF_iterate _ hx]
    omega
  have hbefore : ∀ j, 1 ≤ j → j < k → rssi (stepUpF^[j] f0) ≤ 30 := by
    intro j hj1 hj2
    rw [hsf, stepUpF_iterate _ hx]
    refine hothers _ ⟨by omega, by omega⟩ ?_
    intro hEq
    omega
  have hnocirc : ∀ j, 1 ≤ j → j < k → stepUpF^[j] f0 ≠ f0 := by
    intro j hj1 hj2 hEq
    rw [hsf, stepUpF_iterate _ hx] at hEq
    omega
  have h := seekFrom_hits stepUpF rssi f0 g k hT hstrong hbefore hnocirc
      maxSteps 0 (by omega) (by unfold maxSteps; omega)
  exact ⟨h.1, h.2.1⟩

/-- `seekDown` stops at the unique strong in-band frequency `g`. -/
theorem seekDown_finds_unique (f0 g : Nat) (rssi : Nat → Int)
    (hf : inBand f0) (hg : inBand g) (hstrong : 30 < rssi g)
    (hothers : ∀ f, inBand f → f ≠ g → rssi f ≤ 30) :
    (seekDown rssi f0).found = true ∧ (seekDown rssi f0).freq = g := by
  obtain ⟨hf1, hf2⟩ := hf
  obtain ⟨hg1, hg2⟩ := hg
  have hx : f0 - 875 ≤ 205 := by omega
  have hsf : f0 = 875 + (f0 - 875) := by omega
  have hex : ∃ k, 1 ≤ k ∧ k ≤ 206 ∧ ((f0 - 875) + 205 * k) % 206 = g - 875 := by
    by_cases hlt : g - 875 < f0 - 875
    · exact ⟨(f0 - 875) - (g - 875), by omega, by omega, by omega⟩
    · exact ⟨(f0 - 875) + 206 - (g - 875), by omega, by omega, by omega⟩
  obtain ⟨k, hk1, hk2, hkm⟩ := hex
  have hT : stepDownF^[k] f0 = g := by
    rw [hsf, stepDownF_iterate _ hx]
    omega
  have hbefore : ∀ j, 1 ≤ j → j < k → rssi (stepDownF^[j] f0) ≤ 30 := by
    intro j hj1 hj2
    rw [hsf, stepDownF_iterate _ hx]
    refine hothers _ ⟨by omega, by omega⟩ ?_
    intro hEq
    omega
  have hnocirc : ∀ j, 1 ≤ j → j < k → stepDownF^[j] f0 ≠ f0 := by
    intro j hj1 hj2 hEq
    rw [hsf, stepDownF_iterate _ hx] at hEq
    omega
  have h := seekFrom_hits stepDownF rssi f0 g k hT hstrong hbefore hnocirc
      maxSteps 0 (by omega) (by unfold maxSteps; omega)
  exact ⟨h.1, h.2.1⟩

/-! ## Helper lemmas about the state machine -/

theorem applyOp_band (s : RadioState) (op : Op) (h : inBand s.freq) :
    inBand (applyOp s op).freq := by
  cases op with
  | stepUp => exact stepUpF_band h
  | stepDown => exact stepDownF_band h
  | seekUpOp rssi =>
    exact seekFrom_freq_band stepUpF rssi s.freq (fun f hf => stepUpF_band hf) h
      maxSteps s.freq 0 h
  | seekDownOp rssi =>
    exact seekFrom_freq_band stepDownF rssi s.freq (fun f hf => stepDownF_band hf) h
      maxSteps s.freq 0 h
  | toggle =>
    show inBand (togglePower s).freq
    unfold togglePower
    split <;> exact h
  | rdsPoll t =>
    show inBand (checkRDSData t s).freq
    unfold checkRDSData
    split <;> exact h
  | webRoot => exact h

theorem run_band (ops : List Op) : ∀ s : RadioState, inBand s.freq → inBand (run s ops).freq := by
  induction ops with
  | nil => intro s h; exact h
  | cons op ops ih => intro s h; exact ih _ (applyOp_band s op h)

theorem applyOp_volume (s : RadioState) (op : Op) :
    (applyOp s op).volume = s.volume ∧
    (applyOp s op).tunerVolume = s.tunerVolume ∧
    (applyOp s op).setVolumeCalls = s.setVolumeCalls := by
  cases op with
  | stepUp => exact ⟨rfl, rfl, rfl⟩
  | stepDown => exact ⟨rfl, rfl, rfl⟩
  | seekUpOp rssi => exact ⟨rfl, rfl, rfl⟩
  | seekDownOp rssi => exact ⟨rfl, rfl, rfl⟩
  | toggle =>
    show (togglePower s).volume = _ ∧ (togglePower s).tunerVolume = _ ∧
      (togglePower s).setVolumeCalls = _
    unfold togglePower
    split <;> exact ⟨rfl, rfl, rfl⟩
  | rdsPoll t =>
    show (checkRDSData t s).volume = _ ∧ (checkRDSData t s).tunerVolume = _ ∧
      (checkRDSData t s).setVolumeCalls = _
    unfold checkRDSData
    split <;> exact ⟨rfl, rfl, rfl⟩
  | webRoot => exact ⟨rfl, rfl, rfl⟩

theorem run_volume (ops : List Op) : ∀ s : RadioState,
    (run s ops).volume = s.volume ∧
    (run s ops).tunerVolume = s.tunerVolume ∧
    (run s ops).setVolumeCalls = s.setVolumeCalls := by
  induction ops with
  | nil => intro s; exact ⟨rfl, rfl, rfl⟩
  | cons op ops ih =>
    intro s
    obtain ⟨a, b, c⟩ := applyOp_volume s op
    obtain ⟨a2, b2, c2⟩ := ih (applyOp s op)
    refine ⟨?_, ?_, ?_⟩
    · show (run (applyOp s op) ops).volume = s.volume
      rw [a2, a]
    · show (run (applyOp s op) ops).tunerVolume = s.tunerVolume
      rw [b2, b]
    · show (run (applyOp s op) ops).setVolumeCalls = s.setVolumeCalls
      rw [c2, c]

/-! ## The claims -/

/-- C1: for every in-band starting frequency and either direction, if no
in-band frequency has RSSI above the threshold 30, the seek reports
`found = false` and the controller's frequency afterwards equals the
frequency held immediately before the seek started. -/
theorem seek_failure_restores_frequency (s : RadioState) (rssi : Nat → Int)
    (hs : inBand s.freq) (hweak : ∀ f, inBand f → rssi f ≤ 30) :
    (applyOp s (Op.seekUpOp rssi)).freq = s.freq ∧ (seekUp rssi s.freq).found = false ∧
    (applyOp s (Op.seekDownOp rssi)).freq = s.freq ∧ (seekDown rssi s.freq).found = false := by
  have hu := seekFrom_weak stepUpF rssi s.freq (fun f hf => stepUpF_band hf) hweak
      maxSteps s.freq 0 hs
  have hd := seekFrom_weak stepDownF rssi s.freq (fun f hf => stepDownF_band hf) hweak
      maxSteps s.freq 0 hs
  exact ⟨hu.2, hu.1, hd.2, hd.1⟩

theorem seek_failure_restores_frequency_witness :
    (applyOp st878 (Op.seekUpOp rssiZero)).freq = st878.freq ∧
    (seekUp rssiZero st878.freq).found = false ∧
    (applyOp st878 (Op.seekDownOp rssiZero)).freq = st878.freq ∧
    (seekDown rssiZero st878.freq).found = false :=
  seek_failure_restores_frequency st878 rssiZero (by decide)
    (fun f _ => by unfold rssiZero; norm_num)

/-- C2 counterexample: starting at 87.5 MHz with no station anywhere,
`seekUp` performs 206 tune-then-read iterations, one more than the
claimed bound of bandWidth/stepMHz = 205 (the scan path has 206
frequencies, the full circle back to the start included). -/
theorem seek_full_sweep_exceeds_205 :
    (seekUp rssiZero 875).iters = 206 ∧ (seekUp rssiZero 875).found = false ∧
    ¬ (seekUp rssiZero 875).iters ≤ 205 := by decide

/-- C2 (amended): for every in-band starting frequency, direction and
RSSI response, the seek scan performs at most 206 iterations — one full
band circle, `bandWidth/stepMHz + 1` — before returning, even when the
threshold is never met; the `maxSteps = 2050` bound is never reached. -/
theorem seek_iterations_le_206 (f0 : Nat) (rssi : Nat → Int) (h : inBand f0) :
    (seekUp rssi f0).iters ≤ 206 ∧ (seekDown rssi f0).iters ≤ 206 := by
  obtain ⟨h1, h2⟩ := h
  have hx : f0 - 875 ≤ 205 := by omega
  have hsf : f0 = 875 + (f0 - 875) := by omega
  have hcu : stepUpF^[206] f0 = f0 := by
    conv_lhs => rw [hsf]
    rw [stepUpF_iterate _ hx]
    omega
  have hcd : stepDownF^[206] f0 = f0 := by
    conv_lhs => rw [hsf]
    rw [stepDownF_iterate _ hx]
    omega
  constructor
  · exact seekFrom_iters_le stepUpF rssi f0 hcu maxSteps 0 (by omega)
      (by unfold maxSteps; omega)
  · exact seekFrom_iters_le stepDownF rssi f0 hcd maxSteps 0 (by omega)
      (by unfold maxSteps; omega)

theorem seek_iterations_le_206_witness :
    (seekUp rssiZero 1000).iters ≤ 206 ∧ (seekDown rssiZero 1000).iters ≤ 206 :=
  seek_iterations_le_206 1000 rssiZero (by decide)

/-- C3: if exactly one in-band frequency `g` has RSSI above 30 and every
other in-band frequency is at most 30, both seek directions stop at `g`
with `found = true` and the controller adopts `g`. -/
theorem seek_unique_strong_found (s : RadioState) (g : Nat) (rssi : Nat → Int)
    (hs : inBand s.freq) (hg : inBand g) (hstrong : 30 < rssi g)
    (hothers : ∀ f, inBand f → f ≠ g → rssi f ≤ 30) :
    ((seekUp rssi s.freq).found = true ∧ (applyOp s (Op.seekUpOp rssi)).freq = g) ∧
    ((seekDown rssi s.freq).found = true ∧ (applyOp s (Op.seekDownOp rssi)).freq = g) := by
  have hu := seekUp_finds_unique s.freq g rssi hs hg hstrong hothers
  have hd := seekDown_finds_unique s.freq g rssi hs hg hstrong hothers
  exact ⟨⟨hu.1, hu.2⟩, ⟨hd.1, hd.2⟩⟩

theorem seek_unique_strong_found_witness :
    ((seekUp rssi883 st878.freq).found = true ∧
     (applyOp st878 (Op.seekUpOp rssi883)).freq = 883) ∧
    ((seekDown rssi883 st878.freq).found = true ∧
     (applyOp st878 (Op.seekDownOp rssi883)).freq = 883) :=
  seek_unique_strong_found st878 883 rssi883 (by decide) (by decide) (by decide)
    (fun f _ hne => by unfold rssi883; rw [if_neg hne]; norm_num)

/-- C4 counterexample: seeking up from 87.5 MHz with RSSI 50 at 87.5 MHz
and 0 elsewhere, the scan reaches the state claimed to force
termination with `found = false` — iteration counter 205 (more than 10
steps elapsed) with the scanned frequency back at the start, hence
within one step of it — yet the seek returns `found = true` at the
start frequency: the code checks the RSSI before the full-circle test,
and its proximity tolerance is 0.01 MHz, not one step. -/
theorem seek_full_circle_claim_false :
    (205, 875) ∈ (seekUp rssiHome 875).trace ∧ 10 < (205 : Nat) ∧
    (seekUp rssiHome 875).found = true ∧ (seekUp rssiHome 875).freq = 875 := by decide

/-- C4 (amended): provided the starting frequency's own RSSI does not
exceed the threshold, whenever the scan reaches an iteration `i > 10`
whose scanned frequency equals the starting frequency (the code's
tolerance `abs < 0.01 MHz`, i.e. exact return on the 0.1 MHz grid), the
scan terminates right there with `found = false` — after `i + 1`
iterations instead of the full 2050-iteration bound. -/
theorem seek_full_circle_not_found (f0 : Nat) (rssi : Nat → Int)
    (hweak : rssi f0 ≤ 30) :
    (∀ i, 10 < i → (i, f0) ∈ (seekUp rssi f0).trace →
      (seekUp rssi f0).found = false ∧ (seekUp rssi f0).freq = f0 ∧
      (seekUp rssi f0).iters = i + 1) ∧
    (∀ i, 10 < i → (i, f0) ∈ (seekDown rssi f0).trace →
      (seekDown rssi f0).found = false ∧ (seekDown rssi f0).freq = f0 ∧
      (seekDown rssi f0).iters = i + 1) := by
  constructor
  · intro i hi hmem
    exact seekFrom_circle stepUpF rssi f0 hweak maxSteps f0 0 i hi hmem
  · intro i hi hmem
    exact seekFrom_circle stepDownF rssi f0 hweak maxSteps f0 0 i hi hmem

theorem seek_full_circle_not_found_witness :
    ((seekUp rssiZero 875).found = false ∧ (seekUp rssiZero 875).freq = 875 ∧
     (seekUp rssiZero 875).iters = 205 + 1) ∧
    ((seekDown rssiZero 875).found = false ∧ (seekDown rssiZero 875).freq = 875 ∧
     (seekDown rssiZero 875).iters = 205 + 1) := by
  have h := seek_full_circle_not_found 875 rssiZero (by decide)
  exact ⟨h.1 205 (by decide) (by decide), h.2 205 (by decide) (by decide)⟩

/-- C5: stepping up from 108.0 MHz wraps to 87.5 MHz, stepping down from
87.5 MHz wraps to 108.0 MHz (wraparound is an ordinary state change, not
an error), and from any other in-band frequency a step moves by exactly
one 0.1 MHz unit in the requested direction without wrapping. -/
theorem applyStep_wraparound (s : RadioState) :
    (s.freq = 1080 → (applyOp s Op.stepUp).freq = 875) ∧
    (s.freq = 875 → (applyOp s Op.stepDown).freq = 1080) ∧
    (s.freq < 1080 → (applyOp s Op.stepUp).freq = s.freq + 1) ∧
    (875 < s.freq → (applyOp s Op.stepDown).freq = s.freq - 1) := by
  refine ⟨fun h => ?_, fun h => ?_, fun h => ?_, fun h => ?_⟩
  · show stepUpF s.freq = 875
    rw [h]
    decide
  · show stepDownF s.freq = 1080
    rw [h]
    decide
  · show stepUpF s.freq = s.freq + 1
    unfold stepUpF
    rw [if_neg (by omega)]
  · show stepDownF s.freq = s.freq - 1
    unfold stepDownF
    rw [if_neg (by omega)]

/-- C6: in every state reachable from the post-setup state by any
sequence of operations (steps, seeks, power toggles, RDS polls, web
requests), the frequency lies in [87.5, 108.0] MHz and is an exact
multiple of 0.1 MHz above the band floor 87.5. -/
theorem frequency_invariant_reachable (ops : List Op) :
    (87.5 : ℚ) ≤ freqMHz (run initState ops) ∧ freqMHz (run initState ops) ≤ 108 ∧
    ∃ k : ℕ, k ≤ 205 ∧ freqMHz (run initState ops) = 87.5 + (k : ℚ) * (1 / 10) := by
  obtain ⟨h1, h2⟩ := run_band ops initState (by decide)
  unfold freqMHz
  refine ⟨?_, ?_, (run initState ops).freq - 875, by omega, ?_⟩
  · rw [le_div_iff₀ (by norm_num : (0 : ℚ) < 10)]
    have : ((875 : ℕ) : ℚ) ≤ ((run initState ops).freq : ℚ) := by exact_mod_cast h1
    push_cast at this ⊢
    linarith
  · rw [div_le_iff₀ (by norm_num : (0 : ℚ) < 10)]
    have : ((run initState ops).freq : ℚ) ≤ ((1080 : ℕ) : ℚ) := by exact_mod_cast h2
    push_cast at this ⊢
    linarith
  · have hsplit : (run initState ops).freq = 875 + ((run initState ops).freq - 875) := by
      omega
    rw [hsplit]
    push_cast
    ring_nf
    norm_num

/-- C7: the power toggle flips `radioOn` and never changes the
controller's frequency; turning on re-applies the current frequency to
the tuner and unmutes it, turning off mutes the tuner. -/
theorem togglePower_spec (s : RadioState) :
    (togglePower s).radioOn = !s.radioOn ∧
    (togglePower s).freq = s.freq ∧
    (s.radioOn = false → (togglePower s).tunerFreq = s.freq ∧
      (togglePower s).tunerMuted = false) ∧
    (s.radioOn = true → (togglePower s).tunerMuted = true ∧
      (togglePower s).freq = s.freq) := by
  unfold togglePower
  cases h : s.radioOn <;> simp [h]

/-- C8: when the tuner reports no RDS data ready, `checkRDSData` leaves
the whole state unchanged; when data is ready but the tuner's buffered
values for radio text, program type, traffic flags and program
identification still hold the snapshot's prior values (only the
program-service fragment carries anything new), the poll updates only
the program-service field and leaves the rest at their prior values. -/
theorem checkRDSData_partial_update (s : RadioState) (t : RdsTuner) :
    (t.ready = false → checkRDSData t s = s) ∧
    (t.ready = true → t.rt = s.rds.rt → "PTY:" ++ toString t.pty = s.rds.ptyStr →
      t.tp = s.rds.tp → t.ta = s.rds.ta → t.piCode = s.rds.piCode →
      (checkRDSData t s).rds.ps = t.ps ∧
      (checkRDSData t s).rds.rt = s.rds.rt ∧
      (checkRDSData t s).rds.ptyStr = s.rds.ptyStr ∧
      (checkRDSData t s).rds.tp = s.rds.tp ∧
      (checkRDSData t s).rds.ta = s.rds.ta ∧
      (checkRDSData t s).rds.piCode = s.rds.piCode ∧
      (checkRDSData t s).freq = s.freq) := by
  unfold checkRDSData
  constructor
  · intro h
    simp [h]
  · intro h h1 h2 h3 h4 h5
    simp [h, h1, h2, h3, h4, h5]

/-- C9 (the code violates the claim): one continuous UP press — the
line held from 0 ms to 2000 ms with every frequency strong, so the
long-press seek returns after one 50 ms step — makes the loop emit a
Seek event (at 1220 ms) and then a further Step event (at 2000 ms):
after `seekUp()` the code breaks out without waiting for release, the
debounce window expires while the button is still held, and the same
press is accepted again. -/
theorem single_press_two_events :
    (runSim 2000 rssiAll 60 simInit).events = [InEvent.seek, InEvent.step] ∧
    (runSim 2000 rssiAll 60 simInit).t = 2240 := by decide

/-- C10: volume is initialized to 5, `setVolume` is issued exactly once
(during setup), and no reachable sequence of operations — steps, seeks,
power toggles, RDS polls or web requests — ever changes the volume. -/
theorem volume_never_modified (ops : List Op) :
    (run initState ops).volume = 5 ∧ (run initState ops).tunerVolume = 5 ∧
    (run initState ops).setVolumeCalls = 1 := by
  obtain ⟨a, b, c⟩ := run_volume ops initState
  exact ⟨by rw [a]; rfl, by rw [b]; rfl, by rw [c]; rfl⟩

end FMWebRadio
